import Mathlib

/-!
Verification of the GCS memory-buffered object store (package cloudstorage,
file sub.go of this repository): a shallow embedding of the store registry
(GCSMemStore), the per-object handle state machine (memGCSObject), and the
bounded-retry remote protocol, together with theorems about the spec claims.

Modelling conventions:
* Go machine state is passed explicitly; every function that mutates its
  receiver returns the updated value.
* The external remote object-storage service (GCS) is modelled as a list of
  RemoteObj values; its listing call returns objects whose name extends the
  requested Query value in lexicographic name order, as the real service does.
* Transient remote failures are injected through explicit per-attempt fault
  schedules (a function from the attempt index to the outcome of the remote
  call made at that attempt).
* A Go runtime panic (nil-pointer dereference, bytes.Buffer.Truncate out of
  range) is modelled as the value none of an Option result type.
* Error message strings follow the source; contractions in the source text
  (such as the message of Sync on a handle that is not opened) are rendered
  without the contraction.
-/

/-- Go map from string to string (blob metadata). Modelled as an association
list; lookup returns the first binding. -/
abbrev Metadata : Type := List (String × String)

/-- Lookup of a metadata key, Go map read md[k]. -/
def mdLookup : Metadata → String → Option String
  | [], _ => none
  | (k, v) :: rest, key => if k = key then some v else mdLookup rest key

/-- Go map write md[k] = v: any previous binding for the key is replaced. -/
def mdInsert (md : Metadata) (key v : String) : Metadata :=
  (key, v) :: md.filter (fun p => p.1 ≠ key)

/-- Attributes of a remote object as returned by the listing call
(storage.ObjectAttrs: Name, Updated, Metadata, Size, MD5). Timestamps are
modelled as naturals. -/
structure ObjectAttrs where
  name : String
  updated : Nat
  metadata : Metadata
  size : Nat
  md5 : String
deriving DecidableEq, Repr

/-- Record type constructed by GCSMemStore.List for each listed object
(the source names it gcsFSObject). -/
structure gcsFSObject where
  name : String
  updated : Nat
  metadata : Metadata
deriving DecidableEq, Repr

/-- Listing request (storage.Query): name prefix, page size, continuation
cursor, plus the client-side filter predicates of the cloudstorage Query. -/
structure Query where
  pfx : String
  maxResults : Nat
  cursor : Option String := none
  filters : List (gcsFSObject → Bool) := []

/-- One page of a listing response (storage.ObjectList): the records of the
page and, when more results remain, the query for the next page. -/
structure ObjectList where
  results : List ObjectAttrs
  next : Option Query

/-- A blob held by the external remote store: name, last-updated time,
metadata, content bytes, content hash and content type as committed by the
last successful write. The md5 value is computed server-side by the real
service; no claim observes it, so writes store an empty hash. -/
structure RemoteObj where
  name : String
  updated : Nat
  metadata : Metadata
  content : List UInt8
  md5 : String
  ctype : String
deriving DecidableEq, Repr

/-- Listing attributes of a remote blob; the size attribute is the length of
the committed content. -/
def attrsOf (r : RemoteObj) : ObjectAttrs :=
  { name := r.name, updated := r.updated, metadata := r.metadata,
    size := r.content.length, md5 := r.md5 }

/-- Character-list prefix test (the name-prefix match of the remote listing
service), structurally recursive so that concrete listings evaluate. -/
def strIsPrefixL : List Char → List Char → Bool
  | [], _ => true
  | _ :: _, [] => false
  | a :: as, b :: bs => a = b && strIsPrefixL as bs

/-- String prefix test over the character data. -/
def strIsPrefix (p s : String) : Bool := strIsPrefixL p.data s.data

/-- Character-list lexicographic strict order (the listing order of the
remote service), structurally recursive so that concrete listings
evaluate. -/
def strLtL : List Char → List Char → Bool
  | [], [] => false
  | [], _ :: _ => true
  | _ :: _, [] => false
  | a :: as, b :: bs =>
    if a.val < b.val then true
    else if b.val < a.val then false
    else strLtL as bs

/-- Lexicographic strict order on strings. -/
def strLt (a b : String) : Bool := strLtL a.data b.data

/-- Lexicographic order on strings. -/
def strLe (a b : String) : Bool := !(strLt b a)

/-- Insert an ObjectAttrs into a list sorted by name (helper for the
lexicographic listing order of the remote service). -/
def insertByName (g : ObjectAttrs) : List ObjectAttrs → List ObjectAttrs
  | [] => [g]
  | h :: t => if strLe g.name h.name then g :: h :: t else h :: insertByName g t

/-- Sort listing records by object name (the order the remote service
returns). -/
def sortByName : List ObjectAttrs → List ObjectAttrs
  | [] => []
  | h :: t => insertByName h (sortByName t)

/-- All remote objects whose name extends the requested name pattern, in
lexicographic name order: the result set of a remote listing call before
pagination. -/
def remoteMatching (remote : List RemoteObj) (p : String) : List ObjectAttrs :=
  sortByName ((remote.filter (fun r => strIsPrefix p r.name)).map attrsOf)

/-- Drop the records at or before the continuation cursor. -/
def afterCursor (c : Option String) (l : List ObjectAttrs) : List ObjectAttrs :=
  match c with
  | none => l
  | some cur => l.filter (fun g => strLt cur g.name)

/-- Exact-name lookup in the remote store (what storage.NewReader reads). -/
def remoteFind : List RemoteObj → String → Option RemoteObj
  | [], _ => none
  | r :: rest, n => if r.name = n then some r else remoteFind rest n

/-- Commit a write of a remote object, replacing any object of the same
name. -/
def remoteWrite (remote : List RemoteObj) (r : RemoteObj) : List RemoteObj :=
  r :: remote.filter (fun x => x.name ≠ r.name)

/-- One successful remote listing call: the page of matching records after
the cursor, truncated to the page size, with a continuation query when more
records remain. This models the behaviour of the external client named in
section 6 of the spec; the embedded source only consumes it. -/
def remoteList (remote : List RemoteObj) (q : Query) : ObjectList :=
  let ms := afterCursor q.cursor (remoteMatching remote q.pfx)
  let page := ms.take q.maxResults
  let rest := ms.drop q.maxResults
  { results := page,
    next := if rest.isEmpty ∨ page.isEmpty then none
            else some { pfx := q.pfx, maxResults := q.maxResults,
                        cursor := some ((page.map (fun g => g.name)).getLastD "") } }

/-- Modelled from the spec: GCSRetries, the fixed retry bound shared by every
retrying remote operation (sections 4.2 and 4.4). The constant is declared
elsewhere in the cloudstorage package, outside the embedded source; only its
positivity matters to the claims, which are otherwise proved relative to the
bound. -/
def GCSRetries : Nat := 5

/-- Modelled from the spec: the Backoff Policy of section 4.1, a pure
function from the attempt count to a wait duration, deterministic and
monotonically non-decreasing. Sleeping has no observable effect in this pure
embedding; the retry loops reference the policy where the source sleeps. -/
def backoff (attempt : Nat) : Nat := attempt + 1

/-- Structural errors returned by the store registry (package-level sentinel
errors ObjectNotFound and ObjectExists, plus a propagated listing error). -/
inductive StoreErr where
  | objectNotFound
  | objectExists
  | listErr (e : Option String)
deriving DecidableEq, Repr

/-- Worker loop of GCSMemStore.listObjects: attempt index i, remaining
attempts, and the last observed error. On a client error the error is
recorded, the backoff wait runs, and the loop continues; on success the page
is returned at once. When the attempts run out the pair (nil list, last
error) is returned — note only the LAST error is kept. -/
def listObjectsGo (client : Nat → Except String ObjectList) :
    Nat → Nat → Option String → Option ObjectList × Option String
  | _, 0, lasterr => (none, lasterr)
  | i, rem + 1, _ =>
    match client i with
    | .error e =>
      let _ := backoff i
      listObjectsGo client (i + 1) rem (some e)
    | .ok objects => (some objects, none)

/-- GCSMemStore.listObjects: wrapper around the remote listing call that
retries on an error up to the given bound. The remote call made at each
attempt is abstracted as the client argument (the source calls
g.gcsb().List with the same query every time). Returns the Go pair
(objects, err): on success (some page, none); once the attempts are
exhausted (none, last error) — and (none, none) when the bound is zero. -/
def GCSMemStore.listObjects (client : Nat → Except String ObjectList)
    (retries : Nat) : Option ObjectList × Option String :=
  listObjectsGo client 0 retries none

/-- The per-attempt remote listing client used by the store: at attempt i it
fails with the scheduled fault, if any, and otherwise returns the true
listing of the remote store for the fixed query. -/
def mkClient (remote : List RemoteObj) (q : Query) (fail : Nat → Option String) :
    Nat → Except String ObjectList :=
  fun i =>
    match fail i with
    | some e => .error e
    | none => .ok (remoteList remote q)

/-- Modelled from the spec: the metadata key holding the content type
(the ContextTypeKey constant is declared outside the embedded source). -/
def ContextTypeKey : String := "content_type"

/-- Modelled from the spec: contentType derives a content type from the
object name (section 4.4, a derived content type). The concrete derivation
(a file-extension MIME table) lives outside the embedded source and no claim
observes the value. -/
def contentType (_name : String) : String := "application/octet-stream"

/-- Modelled from the spec: ensureContextType returns the content type to
attach to an upload — the stored metadata value when present, otherwise the
derived one (section 4.4 attaches the metadata mapping and a derived content
type to the upload; the spec does not have Sync mutate the handle
metadata, so the model reads without writing). -/
def ensureContextType (name : String) (md : Metadata) : String :=
  match mdLookup md ContextTypeKey with
  | some c => c
  | none => contentType name

/-- In-memory handle for one remote object (struct memGCSObject). The buff
field models the *bytes.Buffer pointer: none is a nil buffer (as left by
GCSMemStore.Get), some is a live buffer with the given unread bytes. The
environment fields of the struct (bucket handle, bucket name, logger, unused
file descriptor and memcopy fields) carry no state touched by the claims and
are omitted. -/
structure memGCSObject where
  name : String
  updated : Nat
  metadata : Metadata
  googleObject : Option ObjectAttrs
  buff : Option (List UInt8)
  readonly : Bool
  opened : Bool
deriving DecidableEq, Repr

/-- GCSMemStore.Get: resolve a handle by name through a single-result
listing (Query with the name as pattern, MaxResults 1, retried listObjects).
A listing error propagates; a nil or empty result set is ObjectNotFound;
otherwise a fresh handle carries the first listed record as its cached
googleObject. Note the Go struct literal leaves buff nil, and the registry
map is neither read nor written (allocation effects live in runOp). -/
def GCSMemStore.Get (remote : List RemoteObj) (fail : Nat → Option String)
    (o : String) : Except StoreErr memGCSObject :=
  let q : Query := { pfx := o, maxResults := 1 }
  match GCSMemStore.listObjects (mkClient remote q fail) GCSRetries with
  | (_, some e) => .error (.listErr (some e))
  | (gobjects?, none) =>
    match gobjects? with
    | none => .error .objectNotFound
    | some gobjects =>
      match gobjects.results with
      | [] => .error .objectNotFound
      | gobj :: _ =>
        .ok { name := gobj.name, updated := gobj.updated,
              metadata := gobj.metadata, googleObject := some gobj,
              buff := none, readonly := false, opened := false }

/-- GCSMemStore.NewObject: create a handle for a new object. The existence
check goes through Get: a Get error other than ObjectNotFound propagates; a
found object is ObjectExists; on ObjectNotFound a fresh handle is built with
an empty live buffer, the derived content type in its metadata, and zero
values elsewhere (the registry write g.objectMap[name] = obj is the
allocation effect modelled in runOp). -/
def GCSMemStore.NewObject (remote : List RemoteObj) (fail : Nat → Option String)
    (objectname : String) : Except StoreErr memGCSObject :=
  match GCSMemStore.Get remote fail objectname with
  | .error StoreErr.objectNotFound =>
    .ok { name := objectname, updated := 0,
          metadata := [(ContextTypeKey, contentType objectname)],
          googleObject := none, buff := some [],
          readonly := false, opened := false }
  | .error e => .error e
  | .ok _ => .error StoreErr.objectExists

/-- Access level requested at Open (package constants ReadOnly and
ReadWrite). -/
inductive AccessLevel where
  | readOnly
  | readWrite
deriving DecidableEq, Repr

/-- Per-attempt fault injected into one iteration of the Open retry loop:
the resolving list call errors, the download reader creation errors, or the
byte copy errors after delivering the given count of bytes. A fault naming a
call the attempt does not make is ignored. -/
inductive OpenFault where
  | ok
  | listErr (msg : String)
  | readErr (msg : String)
  | copyErr (consumed : Nat) (msg : String)
deriving Repr

/-- Outcome of one iteration of the Open retry loop. -/
inductive OpenAttemptOut where
  | success (o : memGCSObject)
  | failRetry (o : memGCSObject)
  | panicked
deriving Repr

/-- One iteration of the Open retry loop. When no googleObject is cached the
single-result list by name runs (a list error fails the attempt; a nonempty
result caches its first record). When a googleObject is present the content
is downloaded: reader creation can fault, reading a name absent from the
remote store errors, and the copy appends the delivered bytes to the buffer
— a delivery of at least one byte into a nil buffer is a Go panic. -/
def openAttempt (remote : List RemoteObj) (f : OpenFault) (o : memGCSObject) :
    OpenAttemptOut :=
  let step1 : Option memGCSObject :=
    match o.googleObject with
    | some _ => some o
    | none =>
      match f with
      | .listErr _ => none
      | _ =>
        match remoteMatching remote o.name with
        | [] => some o
        | g :: _ => some { o with googleObject := some g }
  match step1 with
  | none => .failRetry o
  | some o1 =>
    match o1.googleObject with
    | none => .success o1
    | some _ =>
      match f with
      | .readErr _ => .failRetry o1
      | _ =>
        match remoteFind remote o1.name with
        | none => .failRetry o1
        | some r =>
          let content :=
            match f with
            | .copyErr c _ => r.content.take c
            | _ => r.content
          match o1.buff with
          | none =>
            if content = [] then
              match f with
              | .copyErr _ _ => .failRetry o1
              | _ => .success o1
            else .panicked
          | some b =>
            let o2 := { o1 with buff := some (b ++ content) }
            match f with
            | .copyErr _ _ => .failRetry o2
            | _ => .success o2

/-- Retry loop of memGCSObject.Open: attempts run with the scheduled faults
until one succeeds (the handle is then marked opened with the requested
read-only flag) or the bound is exhausted, which returns the fixed
retry-limit error — the recorded attempt errors are dropped. The handle
state reached by the failed attempts (cached googleObject, partially
appended buffer) is kept. -/
def openGo (remote : List RemoteObj) (fault : Nat → OpenFault) (ro : Bool) :
    Nat → Nat → memGCSObject → Option (Except String Unit × memGCSObject)
  | 0, _, o => some (.error "memGCSObject.Open() Error, exceeded retry limit", o)
  | rem + 1, att, o =>
    match openAttempt remote (fault att) o with
    | .panicked => none
    | .success o1 => some (.ok (), { o1 with readonly := ro, opened := true })
    | .failRetry o1 =>
      let _ := backoff att
      openGo remote fault ro rem (att + 1) o1

/-- memGCSObject.Open: fails at once when the handle is already opened, with
the handle untouched; otherwise runs the bounded retry loop that resolves
the cached remote record and downloads its content into the buffer, then
marks the handle opened and fixes the read-only flag from the requested
access level. -/
def memGCSObject.Open (o : memGCSObject) (remote : List RemoteObj)
    (fault : Nat → OpenFault) (accesslevel : AccessLevel) :
    Option (Except String Unit × memGCSObject) :=
  if o.opened then some (.error "the store object is already opened.", o)
  else openGo remote fault (decide (accesslevel = AccessLevel.readOnly)) GCSRetries 0 o

/-- memGCSObject.Read: bytes.Buffer.Read into a slice of length n — consumes
up to n unread bytes; io.EOF when the buffer is empty and n is positive.
Reading a nil buffer is a Go panic. -/
def memGCSObject.Read (o : memGCSObject) (n : Nat) :
    Option ((List UInt8 × Option String) × memGCSObject) :=
  match o.buff with
  | none => none
  | some b =>
    some ((b.take n, if b = [] ∧ n ≠ 0 then some "EOF" else none),
          { o with buff := some (b.drop n) })

/-- memGCSObject.Seek: always rejected for the memory-buffered model. -/
def memGCSObject.Seek (_o : memGCSObject) (_offset : Int) (_whence : Nat) :
    Int × Option String :=
  (0, some "Seeking from a Memory Buffer is not allowed")

/-- memGCSObject.Truncate: stamps no error itself — it calls
bytes.Buffer.Truncate(int(t)) and returns nil. The buffer truncation keeps
the first t unread bytes and panics when t is negative or beyond the unread
length (and on a nil buffer). -/
def memGCSObject.Truncate (o : memGCSObject) (t : Int) :
    Option (Option String × memGCSObject) :=
  match o.buff with
  | none => none
  | some b =>
    if 0 ≤ t ∧ t ≤ (b.length : Int) then
      some (none, { o with buff := some (b.take t.toNat) })
    else none

/-- memGCSObject.Write: stamps the updated time with the current clock and
appends the bytes to the buffer (bytes.Buffer.Write always reports the full
length with a nil error); a nil buffer is a Go panic. -/
def memGCSObject.Write (o : memGCSObject) (p : List UInt8) (now : Nat) :
    Option ((Nat × Option String) × memGCSObject) :=
  match o.buff with
  | none => none
  | some b =>
    some ((p.length, none), { o with updated := now, buff := some (b ++ p) })

/-- memGCSObject.Release: resets the buffer without touching remote state; a
nil buffer is a Go panic. -/
def memGCSObject.Release (o : memGCSObject) :
    Option (Option String × memGCSObject) :=
  match o.buff with
  | none => none
  | some _ => some (none, { o with buff := some [] })

/-- Per-attempt fault injected into one iteration of the Sync upload loop:
the copy into the remote writer errors after consuming the given count of
buffered bytes, or closing the writer (the commit) errors after the copy
consumed the whole buffer. Either failure leaves the remote object
uncommitted. -/
inductive SyncFault where
  | ok
  | copyErr (consumed : Nat) (msg : String)
  | closeErr (msg : String)
deriving Repr

/-- The attempt error message recorded by the Sync loop for a faulted
attempt (the source formats these with fmt.Sprintf). -/
def syncAttemptMsg (name : String) : SyncFault → String
  | .ok => ""
  | .copyErr _ m =>
    "could not copy localcache file to remote object. object:" ++ name ++ " err=" ++ m
  | .closeErr m =>
    "could not close gcs writer. object:" ++ name ++ " err=" ++ m

/-- The aggregated error returned by Sync once the retry bound is exhausted:
every recorded attempt error, joined. -/
def syncFailMsg (errs : List String) : String :=
  "unable to sync file: errors[" ++ String.intercalate "," errs ++ "]"

/-- Retry loop of memGCSObject.Sync. Each attempt reads the remaining
buffered bytes through a consuming reader into a fresh remote writer that
carries the handle metadata and the derived content type: a copy fault
consumes the scheduled count of bytes and records an error; a close fault
consumes the whole buffer and records an error; success commits the
remaining bytes as the new remote object body and drains the buffer. On
exhaustion the aggregated error joining every recorded attempt error is
returned and the remote store is left as the attempts left it. -/
def syncGo (fault : Nat → SyncFault) (name : String) (md : Metadata) (now : Nat) :
    Nat → Nat → List String → List UInt8 → List RemoteObj →
    Except String Unit × List UInt8 × List RemoteObj
  | 0, _, errs, b, remote => (.error (syncFailMsg errs), b, remote)
  | rem + 1, att, errs, b, remote =>
    match fault att with
    | .copyErr c m =>
      let _ := backoff att
      syncGo fault name md now rem (att + 1)
        (errs ++ [syncAttemptMsg name (.copyErr c m)]) (b.drop c) remote
    | .closeErr m =>
      let _ := backoff att
      syncGo fault name md now rem (att + 1)
        (errs ++ [syncAttemptMsg name (.closeErr m)]) [] remote
    | .ok =>
      (.ok (), [],
       remoteWrite remote
         { name := name, updated := now, metadata := md, content := b,
           md5 := "", ctype := ensureContextType name md })

/-- memGCSObject.Sync: rejected with an error when the handle is not opened
or is read-only (handle and remote untouched); otherwise uploads the buffer
through the bounded retry loop. A nil buffer panics at the first read of the
first attempt. -/
def memGCSObject.Sync (o : memGCSObject) (remote : List RemoteObj)
    (fault : Nat → SyncFault) (now : Nat) :
    Option (Except String Unit × memGCSObject × List RemoteObj) :=
  if o.opened = false then
    some (.error ("object is not opened object:" ++ o.name), o, remote)
  else if o.readonly then
    some (.error ("trying to Sync a readonly object:" ++ o.name), o, remote)
  else
    match o.buff with
    | none => none
    | some b =>
      let t := syncGo fault o.name o.metadata now GCSRetries 0 [] b remote
      some (t.1, { o with buff := some t.2.1 }, t.2.2)

/-- memGCSObject.Close: a no-op returning nil when the handle is not opened.
Otherwise it calls Sync once unconditionally and propagates its error; for
a still-opened writable handle it then calls Sync a second time and
propagates its error; finally it clears the opened flag. The two Sync calls
take separate fault schedules; the trailing natural in the result counts the
Sync invocations performed (instrumentation only, no source state). -/
def memGCSObject.Close (o : memGCSObject) (remote : List RemoteObj)
    (fault1 fault2 : Nat → SyncFault) (now : Nat) :
    Option (Except String Unit × memGCSObject × List RemoteObj × Nat) :=
  if o.opened = false then some (.ok (), o, remote, 0)
  else
    match memGCSObject.Sync o remote fault1 now with
    | none => none
    | some (.error e, o1, r1) => some (.error e, o1, r1, 1)
    | some (.ok _, o1, r1) =>
      if o1.opened && !o1.readonly then
        match memGCSObject.Sync o1 r1 fault2 now with
        | none => none
        | some (.error e, o2, r2) => some (.error e, o2, r2, 2)
        | some (.ok _, o2, r2) =>
          some (.ok (), { o2 with opened := false }, r2, 2)
      else some (.ok (), { o1 with opened := false }, r1, 1)

/-- Metadata fixup applied by GCSMemStore.List to each merged listing
record: a nil or empty upstream map is replaced by a fresh one, a missing
Content-Length entry is populated from the size attribute, and the md5 entry
is set from the content hash attribute unconditionally. -/
def fixMeta (g : ObjectAttrs) : Metadata :=
  let md0 := if g.metadata = [] then [] else g.metadata
  let md1 :=
    match mdLookup md0 "Content-Length" with
    | some _ => md0
    | none => mdInsert md0 "Content-Length" (toString g.size)
  mdInsert md1 "md5" g.md5

/-- Worker for Query.applyFilters: each client-side predicate filters the
record list in turn, preserving order. -/
def applyFiltersGo : List (gcsFSObject → Bool) → List gcsFSObject → List gcsFSObject
  | [], l => l
  | f :: fs, l => applyFiltersGo fs (l.filter f)

/-- Modelled from the spec: Query.applyFilters of section 4.3 applies the
client-side filter predicates after the remote listing, pure and
order-preserving, the empty filter set being the identity (the Query filter
machinery lives outside the embedded source). -/
def Query.applyFilters (q : Query) (l : List gcsFSObject) : List gcsFSObject :=
  applyFiltersGo q.filters l

/-- Continuation-page loop of GCSMemStore.List: while the previous page
carries a next query, list that page with the retrying listObjects (a fault
schedule per page index), append its records to the accumulated results
(concatGCSObjects of the package merges result slices this way), and follow
its continuation. The fuel bounds the page count; the call site passes more
fuel than the remote store has objects, so the bound is never the reason the
loop stops. -/
def listPages (remote : List RemoteObj) (pageFail : Nat → Nat → Option String)
    (retries : Nat) :
    Nat → Nat → List ObjectAttrs → Query → Except String (List ObjectAttrs)
  | 0, _, accRes, _ => .ok accRes
  | fuel + 1, pageIdx, accRes, q =>
    match GCSMemStore.listObjects (mkClient remote q (pageFail pageIdx)) retries with
    | (_, some e) => .error e
    | (none, none) => .ok accRes
    | (some b, none) =>
      match b.next with
      | none => .ok (accRes ++ b.results)
      | some q2 => listPages remote pageFail retries fuel (pageIdx + 1)
                     (accRes ++ b.results) q2

/-- GCSMemStore.List: build the page query from the requested pattern and
the store page size, list the first page through the retrying listObjects,
follow and merge every continuation page, apply the metadata fixup to each
merged record building a gcsFSObject per record, and finally apply the
client-side filters. A listing error on any page propagates and no partial
result is returned; a nil first page yields the empty result. -/
def GCSMemStore.List (remote : List RemoteObj)
    (pageFail : Nat → Nat → Option String) (pageSize : Nat) (query : Query) :
    Except String (List gcsFSObject) :=
  let q : Query := { pfx := query.pfx, maxResults := pageSize }
  match GCSMemStore.listObjects (mkClient remote q (pageFail 0)) GCSRetries with
  | (_, some e) => .error e
  | (none, none) => .ok []
  | (some gobjects, none) =>
    let merged :=
      match gobjects.next with
      | none => Except.ok gobjects.results
      | some q2 => listPages remote pageFail GCSRetries (remote.length + 1) 1
                     gobjects.results q2
    match merged with
    | .error e => .error e
    | .ok ms =>
      let res := ms.map (fun gobj =>
        { name := gobj.name, updated := gobj.updated,
          metadata := fixMeta gobj : gcsFSObject })
      .ok (query.applyFilters res)

/-- Registry and allocation layer. Go handles are heap pointers: each
successful Get or NewObject allocates a fresh handle object. The heap maps
allocation identifiers to handle values, and the registry objectMap of the
store maps an object name to the identifier NewObject last registered for
it. An operation sequence drives this layer for the registry claims. -/
structure StoreSt where
  remote : List RemoteObj
  heap : List (Nat × memGCSObject)
  nextId : Nat
  objectMap : List (String × Nat)

/-- Lookup of an allocated handle by identifier. -/
def heapGet : List (Nat × memGCSObject) → Nat → Option memGCSObject
  | [], _ => none
  | (i, h) :: rest, id0 => if i = id0 then some h else heapGet rest id0

/-- Registry read objectMap[n]. -/
def mapGet : List (String × Nat) → String → Option Nat
  | [], _ => none
  | (k, v) :: rest, key => if k = key then some v else mapGet rest key

/-- Registry write objectMap[n] = id: Go map assignment, replacing any
previous binding. -/
def mapSet (m : List (String × Nat)) (key : String) (v : Nat) :
    List (String × Nat) :=
  (key, v) :: m.filter (fun p => p.1 ≠ key)

/-- A registry or handle operation of the store (the operations the registry
claim quantifies over). -/
inductive StoreOp where
  | newObject (name : String)
  | get (name : String)

/-- Run one store operation: Get allocates a fresh handle for its result and
touches no registry state; NewObject additionally registers the freshly
allocated identifier under the object name, exactly as the source assigns
g.objectMap[objectname] = obj. A failed operation allocates nothing (the
discarded inner allocation of the existence check inside NewObject is not a
live handle and is not tracked). The result value is the allocated
identifier. -/
def runOp (fail : Nat → Option String) (s : StoreSt) :
    StoreOp → StoreSt × Except StoreErr Nat
  | .get n =>
    match GCSMemStore.Get s.remote fail n with
    | .error e => (s, .error e)
    | .ok h =>
      ({ s with heap := s.heap ++ [(s.nextId, h)], nextId := s.nextId + 1 },
       .ok s.nextId)
  | .newObject n =>
    match GCSMemStore.NewObject s.remote fail n with
    | .error e => (s, .error e)
    | .ok h =>
      ({ s with heap := s.heap ++ [(s.nextId, h)], nextId := s.nextId + 1,
                objectMap := mapSet s.objectMap n s.nextId },
       .ok s.nextId)

/-- Run a sequence of store operations. -/
def runOps (fail : Nat → Option String) (s : StoreSt) : List StoreOp → StoreSt
  | [] => s
  | op :: rest => runOps fail (runOp fail s op).1 rest

/-- Count of live allocated handles bearing the given object name. -/
def liveNamed (s : StoreSt) (n : String) : Nat :=
  (s.heap.filter (fun p => p.2.name = n)).length

/-- The chain of attempt error messages the Sync loop records for attempts
att, att+1, ..., att+n-1 under a given fault schedule. -/
def syncErrsFrom (fault : Nat → SyncFault) (name : String) : Nat → Nat → List String
  | _, 0 => []
  | att, n + 1 =>
    syncAttemptMsg name (fault att) :: syncErrsFrom fault name (att + 1) n

/-- Well-formedness of the registry and allocation state: every allocated
identifier is below the allocation counter, and every registered identifier
refers to a live allocated handle bearing the registered name. -/
def StoreWF (s : StoreSt) : Prop :=
  (∀ i h, heapGet s.heap i = some h → i < s.nextId) ∧
  (∀ n i, mapGet s.objectMap n = some i →
    ∃ h, heapGet s.heap i = some h ∧ h.name = n)

/-- An opened read-only handle (as produced by Get then Open with the
read-only access level, with a live empty buffer). -/
def roOpenHandle : memGCSObject :=
  { name := "a", updated := 0, metadata := [], googleObject := none,
    buff := some [], readonly := true, opened := true }

/-- An opened writable handle holding one buffered byte. -/
def rwOpenHandle : memGCSObject :=
  { name := "a", updated := 0, metadata := [], googleObject := none,
    buff := some [1], readonly := false, opened := true }

/-- A remote store holding exactly one object, named ab. -/
def remoteAB : List RemoteObj :=
  [{ name := "ab", updated := 3, metadata := [], content := [7],
     md5 := "h", ctype := "t" }]

/-- The empty store state: no remote objects, no allocations, no registry
entries. -/
def storeSt0 : StoreSt :=
  { remote := [], heap := [], nextId := 0, objectMap := [] }

/-- A listing client that errors on every attempt, with distinct messages on
attempt zero and on the later attempts. -/
def c3clientA : Nat → Except String ObjectList :=
  fun i => if i = 0 then Except.error "errA" else Except.error "errZ"

/-- A listing client that errors on every attempt like c3clientA but with a
different message on attempt zero. -/
def c3clientB : Nat → Except String ObjectList :=
  fun i => if i = 0 then Except.error "errB" else Except.error "errZ"

/-- A listing fault schedule failing only the first attempt. -/
def failFirst : Nat → Option String :=
  fun i => if i = 0 then some "boom" else none

/-- A Sync fault schedule failing only the first attempt (a copy error
consuming nothing). -/
def syncFailFirst : Nat → SyncFault :=
  fun i => if i = 0 then SyncFault.copyErr 0 "boom" else SyncFault.ok

/-- An Open fault schedule failing only the first attempt with a reader
error. -/
def openFailFirst : Nat → OpenFault :=
  fun i => if i = 0 then OpenFault.readErr "boom" else OpenFault.ok

/-- An Open fault schedule failing every attempt with a list error. -/
def openFailAllList : Nat → OpenFault :=
  fun _ => OpenFault.listErr "boom"

/-- A Sync fault schedule failing every attempt with a writer close
error. -/
def syncFailAll : Nat → SyncFault :=
  fun _ => SyncFault.closeErr "boom"

/-- A remote store with one object whose metadata has no Content-Length and
no md5 entries (witness input for the List metadata fixup). -/
def w8remote : List RemoteObj :=
  [{ name := "w", updated := 2, metadata := [("k", "v")], content := [9, 9],
     md5 := "hash", ctype := "t" }]

/-- A page-indexed fault-free listing schedule. -/
def ffPage : Nat → Nat → Option String := fun _ _ => none

/-- Fault-free listing schedule: every attempt of the remote listing call
succeeds. -/
def ffList : Nat → Option String := fun _ => none

/-- Fault-free Open schedule: every attempt of the resolve-and-download loop
succeeds. -/
def ffOpen : Nat → OpenFault := fun _ => OpenFault.ok

/-- Fault-free Sync schedule: every upload attempt succeeds. -/
def ffSync : Nat → SyncFault := fun _ => SyncFault.ok

/-- An empty listing page with no continuation. -/
def w3page : ObjectList := { results := [], next := none }

/-- A listing client erring on the first attempt and succeeding
afterwards. -/
def w3client : Nat → Except String ObjectList :=
  fun i => if i = 0 then Except.error "boom" else Except.ok w3page

/-- Retry success: when the first k attempts of the listing client error and
attempt k succeeds with a page, the loop returns that page with a nil
error, for any starting attempt index. -/
theorem listObjectsGo_success (client : Nat → Except String ObjectList) :
    ∀ k rem i lasterr objs, k < rem →
      (∀ j, j < k → ∃ e, client (i + j) = Except.error e) →
      client (i + k) = Except.ok objs →
      listObjectsGo client i rem lasterr = (some objs, none) := by
  intro k
  induction k with
  | zero =>
    intro rem i lasterr objs hrem _ hk
    match rem, hrem with
    | rem' + 1, _ =>
      simp only [listObjectsGo]
      rw [show i + 0 = i from rfl] at hk
      rw [hk]
  | succ k ih =>
    intro rem i lasterr objs hrem hfail hk
    match rem, hrem with
    | rem' + 1, hrem =>
      obtain ⟨e, he⟩ := hfail 0 (Nat.succ_pos k)
      rw [show i + 0 = i from rfl] at he
      simp only [listObjectsGo]
      rw [he]
      refine ih rem' (i + 1) (some e) objs (Nat.lt_of_succ_lt_succ hrem) ?_ ?_
      · intro j hj
        obtain ⟨e2, he2⟩ := hfail (j + 1) (Nat.succ_lt_succ hj)
        exact ⟨e2, by rw [show i + 1 + j = i + (j + 1) by omega]; exact he2⟩
      · rw [show i + 1 + k = i + (k + 1) by omega]
        exact hk

/-- Retry exhaustion: when every attempt errors, the loop returns a nil page
and only the error of the final attempt. -/
theorem listObjectsGo_exhaust (client : Nat → Except String ObjectList)
    (es : Nat → String) :
    ∀ rem i lasterr, 0 < rem →
      (∀ j, j < rem → client (i + j) = Except.error (es (i + j))) →
      listObjectsGo client i rem lasterr = (none, some (es (i + rem - 1))) := by
  intro rem
  induction rem with
  | zero => intro i lasterr h; omega
  | succ rem' ih =>
    intro i lasterr _ hfail
    have h0 := hfail 0 (Nat.succ_pos rem')
    rw [show i + 0 = i from rfl] at h0
    have hstep : listObjectsGo client i (rem' + 1) lasterr =
        listObjectsGo client (i + 1) rem' (some (es i)) := by
      simp only [listObjectsGo]
      rw [h0]
    rw [hstep]
    cases Nat.eq_zero_or_pos rem' with
    | inl hz =>
      subst hz
      simp [listObjectsGo]
    | inr hpos =>
      rw [ih (i + 1) (some (es i)) hpos (fun j hj => by
        rw [show i + 1 + j = i + (j + 1) by omega]
        exact hfail (j + 1) (Nat.succ_lt_succ hj))]
      have harith : i + 1 + rem' - 1 = i + (rem' + 1) - 1 := by omega
      rw [harith]

/-- Fault-free listing: with a positive bound the first attempt succeeds at
once with the true remote page. -/
theorem listObjects_ff (remote : List RemoteObj) (q : Query) (retries : Nat)
    (h : 0 < retries) :
    GCSMemStore.listObjects (mkClient remote q ffList) retries =
      (some (remoteList remote q), none) := by
  unfold GCSMemStore.listObjects
  exact listObjectsGo_success (mkClient remote q ffList) 0 retries 0 none
    (remoteList remote q) h (fun j hj => absurd hj (Nat.not_lt_zero j)) rfl


/-- A successful Sync upload leaves the buffer fully drained. -/
theorem syncGo_ok_buff (fault : Nat → SyncFault) (name : String) (md : Metadata)
    (now : Nat) :
    ∀ rem att errs b remote u b2 r2,
      syncGo fault name md now rem att errs b remote = (Except.ok u, b2, r2) →
      b2 = [] := by
  intro rem
  induction rem with
  | zero =>
    intro att errs b remote u b2 r2 h
    simp [syncGo] at h
  | succ rem' ih =>
    intro att errs b remote u b2 r2 h
    cases hfa : fault att with
    | ok =>
      simp only [syncGo, hfa] at h
      exact (Prod.mk.injEq _ _ _ _).mp ((Prod.mk.injEq _ _ _ _).mp h).2 |>.1.symm
    | copyErr c m =>
      simp only [syncGo, hfa] at h
      exact ih _ _ _ _ u b2 r2 h
    | closeErr m =>
      simp only [syncGo, hfa] at h
      exact ih _ _ _ _ u b2 r2 h

/-- Retry success for the Sync upload loop: faulted attempts before a
succeeding attempt inside the bound end in a committed upload with a nil
error. -/
theorem syncGo_success (fault : Nat → SyncFault) (name : String) (md : Metadata)
    (now : Nat) :
    ∀ k rem att errs b remote, k < rem →
      (∀ j, j < k → fault (att + j) ≠ SyncFault.ok) →
      fault (att + k) = SyncFault.ok →
      ∃ b2 r2, syncGo fault name md now rem att errs b remote =
        (Except.ok (), b2, r2) := by
  intro k
  induction k with
  | zero =>
    intro rem att errs b remote hrem _ hk
    match rem, hrem with
    | rem' + 1, _ =>
      rw [show att + 0 = att from rfl] at hk
      exact ⟨[], remoteWrite remote
        { name := name, updated := now, metadata := md, content := b,
          md5 := "", ctype := ensureContextType name md },
        by simp only [syncGo, hk]⟩
  | succ k ih =>
    intro rem att errs b remote hrem hfail hk
    match rem, hrem with
    | rem' + 1, hrem =>
      have h0 := hfail 0 (Nat.succ_pos k)
      rw [show att + 0 = att from rfl] at h0
      have hrec : k < rem' := Nat.lt_of_succ_lt_succ hrem
      have hfail2 : ∀ j, j < k → fault (att + 1 + j) ≠ SyncFault.ok := fun j hj => by
        rw [show att + 1 + j = att + (j + 1) by omega]
        exact hfail (j + 1) (Nat.succ_lt_succ hj)
      have hk2 : fault (att + 1 + k) = SyncFault.ok := by
        rw [show att + 1 + k = att + (k + 1) by omega]
        exact hk
      cases hfa : fault att with
      | ok => exact absurd hfa h0
      | copyErr c m =>
        simp only [syncGo, hfa]
        exact ih rem' (att + 1) _ _ remote hrec hfail2 hk2
      | closeErr m =>
        simp only [syncGo, hfa]
        exact ih rem' (att + 1) _ _ remote hrec hfail2 hk2

/-- Retry exhaustion for the Sync upload loop: when every attempt inside the
bound faults, the loop returns the aggregated error joining the whole chain
of recorded attempt errors, and the remote store is untouched (no attempt
committed). -/
theorem syncGo_exhaust (fault : Nat → SyncFault) (name : String) (md : Metadata)
    (now : Nat) :
    ∀ rem att errs b remote,
      (∀ j, j < rem → fault (att + j) ≠ SyncFault.ok) →
      ∃ b2, syncGo fault name md now rem att errs b remote =
        (Except.error (syncFailMsg (errs ++ syncErrsFrom fault name att rem)),
         b2, remote) := by
  intro rem
  induction rem with
  | zero =>
    intro att errs b remote _
    exact ⟨b, by simp [syncGo, syncErrsFrom]⟩
  | succ rem' ih =>
    intro att errs b remote hfail
    have h0 := hfail 0 (Nat.succ_pos rem')
    rw [show att + 0 = att from rfl] at h0
    have hfail2 : ∀ j, j < rem' → fault (att + 1 + j) ≠ SyncFault.ok := fun j hj => by
      rw [show att + 1 + j = att + (j + 1) by omega]
      exact hfail (j + 1) (Nat.succ_lt_succ hj)
    cases hfa : fault att with
    | ok => exact absurd hfa h0
    | copyErr c m =>
      obtain ⟨b2, hb2⟩ := ih (att + 1)
        (errs ++ [syncAttemptMsg name (SyncFault.copyErr c m)]) (b.drop c) remote hfail2
      refine ⟨b2, ?_⟩
      simp only [syncGo, hfa]
      rw [hb2, syncErrsFrom, hfa]
      simp
    | closeErr m =>
      obtain ⟨b2, hb2⟩ := ih (att + 1)
        (errs ++ [syncAttemptMsg name (SyncFault.closeErr m)]) [] remote hfail2
      refine ⟨b2, ?_⟩
      simp only [syncGo, hfa]
      rw [hb2, syncErrsFrom, hfa]
      simp

/-- An Open attempt whose resolving list call faults fails the attempt and
leaves the handle untouched. -/
theorem open_listErr_attempt (remote : List RemoteObj) (e : String)
    (o : memGCSObject) (hgo : o.googleObject = none) :
    openAttempt remote (OpenFault.listErr e) o = OpenAttemptOut.failRetry o := by
  simp [openAttempt, hgo]

/-- An Open attempt whose download reader faults, on a handle with a cached
remote record, fails the attempt and leaves the handle untouched. -/
theorem open_readErr_attempt (remote : List RemoteObj) (e : String)
    (o : memGCSObject) (g : ObjectAttrs) (hgo : o.googleObject = some g) :
    openAttempt remote (OpenFault.readErr e) o = OpenAttemptOut.failRetry o := by
  simp [openAttempt, hgo]

/-- A fault-free Open attempt on a handle with a cached remote record and a
live buffer downloads the full remote content, appending it to the
buffer. -/
theorem open_ok_attempt (remote : List RemoteObj) (o : memGCSObject)
    (g : ObjectAttrs) (b : List UInt8) (r : RemoteObj)
    (hgo : o.googleObject = some g) (hb : o.buff = some b)
    (hr : remoteFind remote o.name = some r) :
    openAttempt remote OpenFault.ok o =
      OpenAttemptOut.success { o with buff := some (b ++ r.content) } := by
  simp [openAttempt, hgo, hb, hr]

/-- Open retry exhaustion under list faults: every attempt fails at the
resolve step, the handle is left untouched, and the fixed retry-limit error
is returned (the recorded attempt errors are not part of it). -/
theorem openGo_listErr_all (remote : List RemoteObj) (fault : Nat → OpenFault)
    (ro : Bool) :
    ∀ rem att o, o.googleObject = none →
      (∀ j, ∃ e, fault j = OpenFault.listErr e) →
      openGo remote fault ro rem att o =
        some (Except.error "memGCSObject.Open() Error, exceeded retry limit", o) := by
  intro rem
  induction rem with
  | zero => intro att o _ _; rfl
  | succ rem' ih =>
    intro att o hgo hall
    have ha : openAttempt remote (fault att) o = OpenAttemptOut.failRetry o := by
      obtain ⟨e, he⟩ := hall att
      rw [he]
      exact open_listErr_attempt remote e o hgo
    simp only [openGo, ha]
    exact ih (att + 1) o hgo hall

/-- Open retry success after download faults: reader faults on the first k
attempts leave the handle untouched and a fault-free attempt k inside the
bound downloads the content and marks the handle opened with the requested
read-only flag. -/
theorem openGo_readErr_success (remote : List RemoteObj) (fault : Nat → OpenFault)
    (ro : Bool) :
    ∀ k rem att o g b r, k < rem →
      o.googleObject = some g → o.buff = some b →
      remoteFind remote o.name = some r →
      (∀ j, j < k → ∃ e, fault (att + j) = OpenFault.readErr e) →
      fault (att + k) = OpenFault.ok →
      openGo remote fault ro rem att o =
        some (Except.ok (), { o with
          buff := some (b ++ r.content), readonly := ro, opened := true }) := by
  intro k
  induction k with
  | zero =>
    intro rem att o g b r hrem hgo hb hr _ hk
    match rem, hrem with
    | rem' + 1, _ =>
      rw [show att + 0 = att from rfl] at hk
      have ha := open_ok_attempt remote o g b r hgo hb hr
      rw [← hk] at ha
      simp only [openGo, ha]
  | succ k ih =>
    intro rem att o g b r hrem hgo hb hr hfail hk
    match rem, hrem with
    | rem' + 1, hrem =>
      obtain ⟨e, he⟩ := hfail 0 (Nat.succ_pos k)
      rw [show att + 0 = att from rfl] at he
      have ha : openAttempt remote (fault att) o = OpenAttemptOut.failRetry o := by
        rw [he]
        exact open_readErr_attempt remote e o g hgo
      simp only [openGo, ha]
      refine ih rem' (att + 1) o g b r (Nat.lt_of_succ_lt_succ hrem) hgo hb hr ?_ ?_
      · intro j hj
        obtain ⟨e2, he2⟩ := hfail (j + 1) (Nat.succ_lt_succ hj)
        exact ⟨e2, by rw [show att + 1 + j = att + (j + 1) by omega]; exact he2⟩
      · rw [show att + 1 + k = att + (k + 1) by omega]
        exact hk

/-- Filtering out another key leaves a metadata lookup unchanged. -/
theorem mdLookup_filter_ne (md : Metadata) (key k : String) (hne : k ≠ key) :
    mdLookup (md.filter (fun p => p.1 ≠ key)) k = mdLookup md k := by
  induction md with
  | nil => rfl
  | cons a rest ih =>
    obtain ⟨a1, a2⟩ := a
    simp only [decide_not] at ih
    by_cases ha : a1 = key
    · subst ha
      have hak : a1 ≠ k := fun hx => hne hx.symm
      simp [List.filter_cons, mdLookup, hak, ih]
    · by_cases hk : a1 = k
      · subst hk
        simp [List.filter_cons, mdLookup, ha, ih]
      · simp [List.filter_cons, mdLookup, ha, hk, ih]

/-- A metadata lookup of a freshly written key sees the written value. -/
theorem mdLookup_mdInsert_self (md : Metadata) (k v : String) :
    mdLookup (mdInsert md k v) k = some v := by
  simp [mdInsert, mdLookup]

/-- A metadata lookup of a different key is unchanged by a write. -/
theorem mdLookup_mdInsert_ne (md : Metadata) (key v k : String) (hne : k ≠ key) :
    mdLookup (mdInsert md key v) k = mdLookup md k := by
  have : key ≠ k := fun hx => hne hx.symm
  simp only [mdInsert, mdLookup, if_neg this]
  exact mdLookup_filter_ne md key k hne

/-- The md5 entry is present on every fixed-up metadata mapping. -/
theorem fixMeta_md5 (g : ObjectAttrs) :
    mdLookup (fixMeta g) "md5" = some g.md5 := by
  unfold fixMeta
  exact mdLookup_mdInsert_self _ _ _

/-- A record with no upstream Content-Length entry gets one populated from
the size attribute by the fixup. -/
theorem fixMeta_contentLength (g : ObjectAttrs)
    (h : mdLookup g.metadata "Content-Length" = none) :
    mdLookup (fixMeta g) "Content-Length" = some (toString g.size) := by
  have hmd0 : mdLookup (if g.metadata = [] then [] else g.metadata)
      "Content-Length" = none := by
    split
    · rfl
    · exact h
  simp only [fixMeta]
  rw [hmd0]
  rw [mdLookup_mdInsert_ne _ _ _ _ (by decide)]
  exact mdLookup_mdInsert_self _ _ _

/-- Membership in the filtered record list implies membership in the
original: the client-side filters select, never invent. -/
theorem mem_applyFiltersGo (fs : List (gcsFSObject → Bool)) :
    ∀ l r, r ∈ applyFiltersGo fs l → r ∈ l := by
  induction fs with
  | nil => intro l r h; exact h
  | cons f fs ih =>
    intro l r h
    exact List.mem_of_mem_filter (ih _ r h)

/-- Fault-free single-result lookup with no matching remote object:
GCSMemStore.Get reports ObjectNotFound. -/
theorem get_ff_notFound (remote : List RemoteObj) (n : String)
    (h : remoteMatching remote n = []) :
    GCSMemStore.Get remote ffList n = Except.error StoreErr.objectNotFound := by
  simp only [GCSMemStore.Get]
  rw [listObjects_ff remote _ GCSRetries (by decide)]
  simp [remoteList, afterCursor, h]

/-- Fault-free single-result lookup with at least one matching remote
object: GCSMemStore.Get builds the handle from the head record, with the
buffer left nil (content not downloaded). -/
theorem get_ff_found (remote : List RemoteObj) (n : String) (g : ObjectAttrs)
    (gs : List ObjectAttrs) (h : remoteMatching remote n = g :: gs) :
    GCSMemStore.Get remote ffList n =
      Except.ok { name := g.name, updated := g.updated, metadata := g.metadata,
                  googleObject := some g, buff := none, readonly := false,
                  opened := false } := by
  simp only [GCSMemStore.Get]
  rw [listObjects_ff remote _ GCSRetries (by decide)]
  simp [remoteList, afterCursor, h]

/-- Lookup whose listing errors on every attempt: GCSMemStore.Get propagates
the last listing error. -/
theorem get_exhaust (remote : List RemoteObj) (fail : Nat → Option String)
    (es : Nat → String) (n : String)
    (hfail : ∀ j, j < GCSRetries → fail j = some (es j)) :
    GCSMemStore.Get remote fail n =
      Except.error (StoreErr.listErr (some (es (GCSRetries - 1)))) := by
  simp only [GCSMemStore.Get]
  have hclient : ∀ j, j < GCSRetries →
      mkClient remote { pfx := n, maxResults := 1 } fail j =
        Except.error (es j) := by
    intro j hj
    simp [mkClient, hfail j hj]
  have := listObjectsGo_exhaust
    (mkClient remote { pfx := n, maxResults := 1 } fail) es GCSRetries 0 none
    (by decide)
    (fun j hj => by rw [show 0 + j = j from Nat.zero_add j]; exact hclient j hj)
  rw [show (0 : Nat) + GCSRetries - 1 = GCSRetries - 1 by omega] at this
  unfold GCSMemStore.listObjects
  rw [this]

/-- NewObject only constructs handles bearing the requested name. -/
theorem newObject_ok_name (remote : List RemoteObj) (fail : Nat → Option String)
    (n : String) (h : memGCSObject)
    (hok : GCSMemStore.NewObject remote fail n = Except.ok h) : h.name = n := by
  unfold GCSMemStore.NewObject at hok
  cases hg : GCSMemStore.Get remote fail n with
  | error e =>
    rw [hg] at hok
    cases e with
    | objectNotFound =>
      simp only [Except.ok.injEq] at hok
      rw [← hok]
    | objectExists => simp at hok
    | listErr e2 => simp at hok
  | ok h2 =>
    rw [hg] at hok
    simp at hok

/-- A heap lookup that succeeds still succeeds after further allocations are
appended. -/
theorem heapGet_append_left (l l2 : List (Nat × memGCSObject)) (i : Nat)
    (h : memGCSObject) (hi : heapGet l i = some h) :
    heapGet (l ++ l2) i = some h := by
  induction l with
  | nil => simp [heapGet] at hi
  | cons a rest ih =>
    obtain ⟨a1, a2⟩ := a
    by_cases ha : a1 = i
    · simp only [heapGet, if_pos ha] at hi
      simp only [List.cons_append, heapGet, if_pos ha]
      exact hi
    · simp only [heapGet, if_neg ha] at hi
      simp only [List.cons_append, heapGet, if_neg ha]
      exact ih hi

/-- Case analysis of a heap lookup after one appended allocation: the lookup
either resolves in the old heap or names exactly the new allocation. -/
theorem heapGet_append_cases (l : List (Nat × memGCSObject)) (j : Nat)
    (hobj : memGCSObject) (i : Nat) (x : memGCSObject)
    (h : heapGet (l ++ [(j, hobj)]) i = some x) :
    heapGet l i = some x ∨ (i = j ∧ x = hobj) := by
  induction l with
  | nil =>
    simp only [List.nil_append, heapGet] at h
    by_cases hj : j = i
    · rw [if_pos hj] at h
      exact Or.inr ⟨hj.symm, ((Option.some.injEq _ _).mp h.symm)⟩
    · rw [if_neg hj] at h
      exact absurd h (by simp)
  | cons a rest ih =>
    obtain ⟨a1, a2⟩ := a
    by_cases ha : a1 = i
    · simp only [List.cons_append, heapGet, if_pos ha] at h
      exact Or.inl (by simp only [heapGet, if_pos ha]; exact h)
    · simp only [List.cons_append, heapGet, if_neg ha] at h
      cases ih h with
      | inl hl => exact Or.inl (by simp only [heapGet, if_neg ha]; exact hl)
      | inr hr => exact Or.inr hr

/-- A fresh allocation is found by its own identifier when that identifier
was absent from the heap. -/
theorem heapGet_append_fresh (l : List (Nat × memGCSObject)) (j : Nat)
    (hobj : memGCSObject) (hnone : heapGet l j = none) :
    heapGet (l ++ [(j, hobj)]) j = some hobj := by
  induction l with
  | nil => simp [heapGet]
  | cons a rest ih =>
    obtain ⟨a1, a2⟩ := a
    by_cases ha : a1 = j
    · simp [heapGet, if_pos ha] at hnone
    · simp only [heapGet, if_neg ha] at hnone
      simp only [List.cons_append, heapGet, if_neg ha]
      exact ih hnone

/-- Filtering out one registry key leaves the lookup of other keys
unchanged. -/
theorem mapGet_filter_ne (m : List (String × Nat)) (key k : String)
    (hne : k ≠ key) :
    mapGet (m.filter (fun p => p.1 ≠ key)) k = mapGet m k := by
  induction m with
  | nil => rfl
  | cons a rest ih =>
    obtain ⟨a1, a2⟩ := a
    simp only [decide_not] at ih
    by_cases ha : a1 = key
    · subst ha
      have hak : a1 ≠ k := fun hx => hne hx.symm
      simp [List.filter_cons, mapGet, hak, ih]
    · by_cases hk : a1 = k
      · subst hk
        simp [List.filter_cons, mapGet, ha, ih]
      · simp [List.filter_cons, mapGet, ha, hk, ih]

/-- A registry write is seen by a lookup of the written key and is invisible
to lookups of other keys. -/
theorem mapGet_mapSet (m : List (String × Nat)) (key : String) (v : Nat)
    (k : String) :
    mapGet (mapSet m key v) k = if key = k then some v else mapGet m k := by
  by_cases h : key = k
  · subst h
    simp [mapSet, mapGet]
  · have hkk : k ≠ key := fun hx => h hx.symm
    rw [if_neg h]
    simp only [mapSet, mapGet, if_neg h]
    exact mapGet_filter_ne m key k hkk

/-- One store operation preserves the registry well-formedness
invariant. -/
theorem storeWF_runOp (fail : Nat → Option String) (s : StoreSt) (op : StoreOp)
    (hs : StoreWF s) : StoreWF (runOp fail s op).1 := by
  have hfreshNone : heapGet s.heap s.nextId = none := by
    cases hx : heapGet s.heap s.nextId with
    | none => rfl
    | some x => exact absurd (hs.1 s.nextId x hx) (lt_irrefl s.nextId)
  cases op with
  | get n =>
    cases hg : GCSMemStore.Get s.remote fail n with
    | error e => simpa [runOp, hg] using hs
    | ok h =>
      simp only [runOp, hg]
      constructor
      · intro i hh hhi
        cases heapGet_append_cases s.heap s.nextId h i hh hhi with
        | inl hl => exact Nat.lt_succ_of_lt (hs.1 i hh hl)
        | inr hr => exact hr.1 ▸ Nat.lt_succ_self s.nextId
      · intro n2 i hmi
        obtain ⟨hh, hhg, hhn⟩ := hs.2 n2 i hmi
        exact ⟨hh, heapGet_append_left _ _ _ _ hhg, hhn⟩
  | newObject n =>
    cases hg : GCSMemStore.NewObject s.remote fail n with
    | error e => simpa [runOp, hg] using hs
    | ok h =>
      simp only [runOp, hg]
      constructor
      · intro i hh hhi
        cases heapGet_append_cases s.heap s.nextId h i hh hhi with
        | inl hl => exact Nat.lt_succ_of_lt (hs.1 i hh hl)
        | inr hr => exact hr.1 ▸ Nat.lt_succ_self s.nextId
      · intro n2 i hmi
        rw [mapGet_mapSet] at hmi
        by_cases hn : n = n2
        · rw [if_pos hn] at hmi
          have hi : i = s.nextId := (Option.some.injEq _ _).mp hmi.symm
          subst hi
          refine ⟨h, heapGet_append_fresh s.heap s.nextId h hfreshNone, ?_⟩
          rw [← hn]
          exact newObject_ok_name s.remote fail n h hg
        · rw [if_neg hn] at hmi
          obtain ⟨hh, hhg, hhn⟩ := hs.2 n2 i hmi
          exact ⟨hh, heapGet_append_left _ _ _ _ hhg, hhn⟩

/-- Claim C1: the claim states Close on an opened writable handle performs
exactly one Sync, and that on sync success or on a readonly handle it marks
the handle closed and returns success. The code contradicts it on both
counts, evaluated here: Close on an opened READONLY handle calls Sync
unconditionally, which rejects readonly handles, so Close returns that
error and leaves the handle opened; Close on an opened WRITABLE handle
performs TWO Syncs, the second committing the drained (empty) buffer over
the object the first just uploaded. -/
theorem close_readonly_and_double_sync_bug :
    memGCSObject.Close roOpenHandle [] ffSync ffSync 7 =
      some (Except.error "trying to Sync a readonly object:a",
            roOpenHandle, [], 1) ∧
    memGCSObject.Close rwOpenHandle [] ffSync ffSync 7 =
      some (Except.ok (),
            { rwOpenHandle with buff := some [], opened := false },
            [{ name := "a", updated := 7, metadata := [], content := [],
               md5 := "", ctype := "application/octet-stream" }], 2) := by
  exact ⟨rfl, rfl⟩

/-- Claim C2: the claim states the written bytes round-trip through remote
storage: Open, Write data, Close, fresh Open, Read returns exactly data.
Evaluated on the code with data = [1] and a fault-free remote: Close
succeeds but its second Sync overwrites the remote object with the drained
empty buffer, and the fresh handle built by Get carries a nil buffer, so
the final Read is a nil-pointer panic (modelled none) instead of [1]. -/
theorem roundTrip_write_close_reopen_read_bug :
    ∃ h1 h2 h3 h4 r2 h5 h6,
      GCSMemStore.NewObject [] ffList "f" = Except.ok h1 ∧
      memGCSObject.Open h1 [] ffOpen AccessLevel.readWrite =
        some (Except.ok (), h2) ∧
      memGCSObject.Write h2 [1] 5 = some ((1, none), h3) ∧
      memGCSObject.Close h3 [] ffSync ffSync 6 =
        some (Except.ok (), h4, r2, 2) ∧
      remoteFind r2 "f" =
        some { name := "f", updated := 6,
               metadata := [(ContextTypeKey, contentType "f")], content := [],
               md5 := "", ctype := contentType "f" } ∧
      GCSMemStore.Get r2 ffList "f" = Except.ok h5 ∧
      memGCSObject.Open h5 r2 ffOpen AccessLevel.readOnly =
        some (Except.ok (), h6) ∧
      memGCSObject.Read h6 1 = none := by
  refine ⟨{ name := "f", updated := 0,
            metadata := [("content_type", "application/octet-stream")],
            googleObject := none, buff := some [], readonly := false,
            opened := false },
          { name := "f", updated := 0,
            metadata := [("content_type", "application/octet-stream")],
            googleObject := none, buff := some [], readonly := false,
            opened := true },
          { name := "f", updated := 5,
            metadata := [("content_type", "application/octet-stream")],
            googleObject := none, buff := some [1], readonly := false,
            opened := true },
          { name := "f", updated := 5,
            metadata := [("content_type", "application/octet-stream")],
            googleObject := none, buff := some [], readonly := false,
            opened := false },
          [{ name := "f", updated := 6,
             metadata := [("content_type", "application/octet-stream")],
             content := [], md5 := "", ctype := "application/octet-stream" }],
          { name := "f", updated := 6,
            metadata := [("content_type", "application/octet-stream")],
            googleObject := some { name := "f", updated := 6,
                                   metadata := [("content_type",
                                     "application/octet-stream")],
                                   size := 0, md5 := "" },
            buff := none, readonly := false, opened := false },
          { name := "f", updated := 6,
            metadata := [("content_type", "application/octet-stream")],
            googleObject := some { name := "f", updated := 6,
                                   metadata := [("content_type",
                                     "application/octet-stream")],
                                   size := 0, md5 := "" },
            buff := none, readonly := true, opened := true },
          ?_, ?_, ?_, ?_, ?_, ?_, ?_, ?_⟩ <;> rfl

/-- Claim C3 counterexample: the claim states every exhausted retrying
operation returns a failure carrying the chain of underlying errors. For
the listing operation this is false: two fault schedules whose error chains
differ in the first attempt produce the SAME returned failure (the last
error only), so the returned failure cannot carry the chain. -/
theorem retry_error_chain_counterexample :
    GCSMemStore.listObjects c3clientA 2 = (none, some "errZ") ∧
    GCSMemStore.listObjects c3clientB 2 = (none, some "errZ") ∧
    c3clientA 0 = Except.error "errA" ∧
    c3clientB 0 = Except.error "errB" ∧
    "errA" ≠ "errB" := by
  exact ⟨rfl, rfl, rfl, rfl, by decide⟩

/-- Claim C4 counterexample: the claim states NewObject fails with
ObjectExists only when a remote object exists under exactly the requested
name. The existence check is a PREFIX lookup: with the remote store holding
only the object named ab, NewObject of the name a fails with ObjectExists
although no object named a exists. -/
theorem newObject_prefix_exists_counterexample :
    GCSMemStore.NewObject remoteAB ffList "a" =
      Except.error StoreErr.objectExists ∧
    remoteAB.map (fun r => r.name) = ["ab"] ∧
    ("a" : String) ≠ "ab" := by
  exact ⟨rfl, rfl, by decide⟩

/-- Claim C5 counterexample: the claim states Get fails with ObjectNotFound
when the remote store has no object with exactly the requested name. The
lookup is by prefix: with the remote store holding only the object named
ab, Get of the name a succeeds and returns a handle for ab. -/
theorem get_prefix_match_counterexample :
    GCSMemStore.Get remoteAB ffList "a" =
      Except.ok { name := "ab", updated := 3, metadata := [],
                  googleObject := some { name := "ab", updated := 3,
                                         metadata := [], size := 1,
                                         md5 := "h" },
                  buff := none, readonly := false, opened := false } ∧
    remoteAB.map (fun r => r.name) = ["ab"] ∧
    ("a" : String) ≠ "ab" := by
  exact ⟨rfl, rfl, by decide⟩

/-- Claim C6 counterexample: the claim states any sequence of NewObject and
Get calls yields at most one live handle instance per name. Two successful
NewObject calls on the same name against an empty remote store each
allocate a live handle: two live handles for one name. -/
theorem registry_duplicate_handles_counterexample :
    liveNamed (runOps ffList storeSt0
      [StoreOp.newObject "a", StoreOp.newObject "a"]) "a" = 2 ∧
    1 < liveNamed (runOps ffList storeSt0
      [StoreOp.newObject "a", StoreOp.newObject "a"]) "a" := by
  have h : liveNamed (runOps ffList storeSt0
      [StoreOp.newObject "a", StoreOp.newObject "a"]) "a" = 2 := rfl
  exact ⟨h, h ▸ one_lt_two⟩

/-- Claim C7: Open on an already-opened handle fails, regardless of access
level, and the failed call leaves the handle state (opened, readonly,
buffer, cached record) unchanged. -/
theorem open_already_opened_fails (o : memGCSObject) (remote : List RemoteObj)
    (fault : Nat → OpenFault) (lvl : AccessLevel) (h : o.opened = true) :
    memGCSObject.Open o remote fault lvl =
      some (Except.error "the store object is already opened.", o) := by
  simp [memGCSObject.Open, h]

/-- Witness for claim C7 at a concrete opened handle. -/
theorem open_already_opened_fails_witness :
    memGCSObject.Open roOpenHandle [] ffOpen AccessLevel.readWrite =
      some (Except.error "the store object is already opened.", roOpenHandle) :=
  open_already_opened_fails roOpenHandle [] ffOpen AccessLevel.readWrite rfl

/-- Claim C9: a successful Sync drains the in-memory buffer (the upload
consumes it through a reader), and every other handle field — name,
metadata, opened, readonly, and also the updated stamp — is unchanged. -/
theorem sync_drains_buffer_frame (o : memGCSObject) (remote : List RemoteObj)
    (fault : Nat → SyncFault) (now : Nat) (o2 : memGCSObject)
    (r2 : List RemoteObj)
    (h : memGCSObject.Sync o remote fault now = some (Except.ok (), o2, r2)) :
    o2.buff = some [] ∧ o2.name = o.name ∧ o2.metadata = o.metadata ∧
    o2.opened = o.opened ∧ o2.readonly = o.readonly ∧
    o2.updated = o.updated := by
  by_cases h1 : o.opened = false
  · simp only [memGCSObject.Sync, if_pos h1] at h
    simp at h
  · by_cases h2 : o.readonly = true
    · simp only [memGCSObject.Sync, if_neg h1, if_pos h2] at h
      simp at h
    · cases hb : o.buff with
      | none =>
        simp only [memGCSObject.Sync, if_neg h1, if_neg h2, hb] at h
        simp at h
      | some b =>
        simp only [memGCSObject.Sync, if_neg h1, if_neg h2, hb] at h
        rcases hsg : syncGo fault o.name o.metadata now GCSRetries 0 [] b remote
          with ⟨res, b2, r2x⟩
        rw [hsg] at h
        simp only [Option.some.injEq, Prod.mk.injEq] at h
        obtain ⟨hres, ho2, hr2⟩ := h
        have hb2 : b2 = [] :=
          syncGo_ok_buff fault o.name o.metadata now GCSRetries 0 [] b remote
            () b2 r2x (by rw [hsg, hres])
        rw [← ho2, hb2]
        simp

/-- Witness for claim C9 at a concrete opened writable handle with one
buffered byte under a fault-free schedule. -/
theorem sync_drains_buffer_frame_witness :
    ({ rwOpenHandle with buff := some [] } : memGCSObject).buff = some [] ∧
    ({ rwOpenHandle with buff := some [] } : memGCSObject).name =
      rwOpenHandle.name ∧
    ({ rwOpenHandle with buff := some [] } : memGCSObject).metadata =
      rwOpenHandle.metadata ∧
    ({ rwOpenHandle with buff := some [] } : memGCSObject).opened =
      rwOpenHandle.opened ∧
    ({ rwOpenHandle with buff := some [] } : memGCSObject).readonly =
      rwOpenHandle.readonly ∧
    ({ rwOpenHandle with buff := some [] } : memGCSObject).updated =
      rwOpenHandle.updated :=
  sync_drains_buffer_frame rwOpenHandle [] ffSync 7
    { rwOpenHandle with buff := some [] }
    [{ name := "a", updated := 7, metadata := [], content := [1],
       md5 := "", ctype := "application/octet-stream" }] rfl

/-- Claim C10: Truncate never returns an error value — when the requested
length is between zero and the buffered length it resizes the buffer and
returns nil, and outside that range the underlying buffer truncation panics
instead of reporting an error. -/
theorem truncate_semantics (o : memGCSObject) (b : List UInt8) (t : Int)
    (hb : o.buff = some b) :
    ((0 ≤ t ∧ t ≤ (b.length : Int)) →
      memGCSObject.Truncate o t =
        some (none, { o with buff := some (b.take t.toNat) })) ∧
    (¬(0 ≤ t ∧ t ≤ (b.length : Int)) → memGCSObject.Truncate o t = none) ∧
    (∀ e o2, memGCSObject.Truncate o t = some (e, o2) → e = none) := by
  have hpos : ∀ _ : 0 ≤ t ∧ t ≤ (b.length : Int),
      memGCSObject.Truncate o t =
        some (none, { o with buff := some (b.take t.toNat) }) := by
    intro hq
    simp [memGCSObject.Truncate, hb, if_pos hq]
  have hneg : ¬(0 ≤ t ∧ t ≤ (b.length : Int)) →
      memGCSObject.Truncate o t = none := by
    intro hq
    simp [memGCSObject.Truncate, hb, if_neg hq]
  refine ⟨hpos, hneg, ?_⟩
  intro e o2 he
  by_cases h : 0 ≤ t ∧ t ≤ (b.length : Int)
  · rw [hpos h] at he
    simp only [Option.some.injEq, Prod.mk.injEq] at he
    exact he.1.symm
  · rw [hneg h] at he
    simp at he

/-- Witness for claim C10 at a concrete handle with one buffered byte,
truncated to zero. -/
theorem truncate_semantics_witness :
    memGCSObject.Truncate rwOpenHandle 0 =
      some (none, { rwOpenHandle with buff := some [] }) :=
  (truncate_semantics rwOpenHandle [1] 0 rfl).1 (by decide)

/-- Unfolded form of Sync on an opened writable handle with a live buffer:
the retry loop runs and its outcome is packaged with the updated buffer and
remote store. -/
theorem sync_unfold_some (o : memGCSObject) (remote : List RemoteObj)
    (fault : Nat → SyncFault) (now : Nat) (b : List UInt8)
    (hop : o.opened = true) (hro : o.readonly = false) (hb : o.buff = some b) :
    memGCSObject.Sync o remote fault now =
      some ((syncGo fault o.name o.metadata now GCSRetries 0 [] b remote).1,
            { o with
              buff := some
                (syncGo fault o.name o.metadata now GCSRetries 0 [] b remote).2.1 },
            (syncGo fault o.name o.metadata now GCSRetries 0 [] b remote).2.2) := by
  have h1 : ¬o.opened = false := by rw [hop]; simp
  have h2 : ¬o.readonly = true := by rw [hro]; simp
  simp only [memGCSObject.Sync, if_neg h1, if_neg h2, hb]

/-- Claim C3, amended: for the retrying operations, k transient failures
followed by a success inside the bound yield success with no error
surfaced; on exhaustion a single failure with no partial results is
returned, in which only the sync upload carries the chain of attempt
errors — the listing failure carries the final attempt error alone and the
open failure is a fixed retry-limit message. Stated in order for: listing
success, listing exhaustion, sync success, sync exhaustion (with the remote
store unchanged), open-download success, open exhaustion (with the handle
unchanged). -/
theorem retry_semantics_amended :
    (∀ (client : Nat → Except String ObjectList) retries k objs,
      k < retries →
      (∀ j, j < k → ∃ e, client j = Except.error e) →
      client k = Except.ok objs →
      GCSMemStore.listObjects client retries = (some objs, none)) ∧
    (∀ (client : Nat → Except String ObjectList) retries (es : Nat → String),
      0 < retries →
      (∀ j, j < retries → client j = Except.error (es j)) →
      GCSMemStore.listObjects client retries = (none, some (es (retries - 1)))) ∧
    (∀ (o : memGCSObject) remote (fault : Nat → SyncFault) now b k,
      o.opened = true → o.readonly = false → o.buff = some b →
      k < GCSRetries →
      (∀ j, j < k → fault j ≠ SyncFault.ok) → fault k = SyncFault.ok →
      ∃ o2 r2, memGCSObject.Sync o remote fault now =
        some (Except.ok (), o2, r2)) ∧
    (∀ (o : memGCSObject) remote (fault : Nat → SyncFault) now b,
      o.opened = true → o.readonly = false → o.buff = some b →
      (∀ j, j < GCSRetries → fault j ≠ SyncFault.ok) →
      ∃ o2, memGCSObject.Sync o remote fault now =
        some (Except.error
          (syncFailMsg (syncErrsFrom fault o.name 0 GCSRetries)), o2, remote)) ∧
    (∀ (o : memGCSObject) remote (fault : Nat → OpenFault) lvl g b r k,
      o.opened = false → o.googleObject = some g → o.buff = some b →
      remoteFind remote o.name = some r → k < GCSRetries →
      (∀ j, j < k → ∃ e, fault j = OpenFault.readErr e) →
      fault k = OpenFault.ok →
      memGCSObject.Open o remote fault lvl =
        some (Except.ok (), { o with
          buff := some (b ++ r.content),
          readonly := decide (lvl = AccessLevel.readOnly), opened := true })) ∧
    (∀ (o : memGCSObject) remote (fault : Nat → OpenFault) lvl,
      o.opened = false → o.googleObject = none →
      (∀ j, ∃ e, fault j = OpenFault.listErr e) →
      memGCSObject.Open o remote fault lvl =
        some (Except.error "memGCSObject.Open() Error, exceeded retry limit",
              o)) := by
  refine ⟨?_, ?_, ?_, ?_, ?_, ?_⟩
  · intro client retries k objs hk hfail hsucc
    unfold GCSMemStore.listObjects
    exact listObjectsGo_success client k retries 0 none objs hk
      (fun j hj => by rw [Nat.zero_add]; exact hfail j hj)
      (by rw [Nat.zero_add]; exact hsucc)
  · intro client retries es hpos hfail
    unfold GCSMemStore.listObjects
    have := listObjectsGo_exhaust client es retries 0 none hpos
      (fun j hj => by rw [Nat.zero_add]; exact hfail j hj)
    rw [show (0 : Nat) + retries - 1 = retries - 1 by omega] at this
    exact this
  · intro o remote fault now b k hop hro hb hk hfail hfk
    obtain ⟨b2, r2, hsg⟩ := syncGo_success fault o.name o.metadata now k
      GCSRetries 0 [] b remote hk
      (fun j hj => by rw [Nat.zero_add]; exact hfail j hj)
      (by rw [Nat.zero_add]; exact hfk)
    refine ⟨{ o with buff := some b2 }, r2, ?_⟩
    rw [sync_unfold_some o remote fault now b hop hro hb, hsg]
  · intro o remote fault now b hop hro hb hfail
    obtain ⟨b2, hsg⟩ := syncGo_exhaust fault o.name o.metadata now GCSRetries
      0 [] b remote (fun j hj => by rw [Nat.zero_add]; exact hfail j hj)
    rw [List.nil_append] at hsg
    refine ⟨{ o with buff := some b2 }, ?_⟩
    rw [sync_unfold_some o remote fault now b hop hro hb, hsg]
  · intro o remote fault lvl g b r k hop hgo hb hr hk hfail hfk
    simp only [memGCSObject.Open, hop, Bool.false_eq_true, if_false]
    exact openGo_readErr_success remote fault
      (decide (lvl = AccessLevel.readOnly)) k GCSRetries 0 o g b r hk hgo hb hr
      (fun j hj => by rw [Nat.zero_add] at *; exact hfail j hj)
      (by rw [Nat.zero_add]; exact hfk)
  · intro o remote fault lvl hop hgo hall
    simp only [memGCSObject.Open, hop, Bool.false_eq_true, if_false]
    exact openGo_listErr_all remote fault
      (decide (lvl = AccessLevel.readOnly)) GCSRetries 0 o hgo hall

/-- Witness for claim C3 at a concrete listing client failing once and
succeeding on the second attempt with an empty page. -/
theorem retry_semantics_amended_witness :
    GCSMemStore.listObjects w3client 3 = (some w3page, none) :=
  retry_semantics_amended.1 w3client 3 1 w3page (by decide)
    (fun j hj => ⟨"boom", by
      have hj0 : j = 0 := by omega
      subst hj0
      rfl⟩)
    rfl

/-- Claim C4, amended: NewObject fails with ObjectExists when the
single-result PREFIX lookup finds any remote object whose name extends the
requested name (not only an exact match); it propagates a lookup error once
the listing retries are exhausted; otherwise it returns a fresh handle with
an empty live buffer, writable and not opened, carrying the derived content
type — and the operation layer registers the freshly allocated handle under
the requested name. -/
theorem newObject_amended :
    (∀ remote n, remoteMatching remote n ≠ [] →
      GCSMemStore.NewObject remote ffList n =
        Except.error StoreErr.objectExists) ∧
    (∀ remote n, remoteMatching remote n = [] →
      GCSMemStore.NewObject remote ffList n =
        Except.ok { name := n, updated := 0,
                    metadata := [(ContextTypeKey, contentType n)],
                    googleObject := none, buff := some [],
                    readonly := false, opened := false }) ∧
    (∀ remote (fail : Nat → Option String) (es : Nat → String) n,
      (∀ j, j < GCSRetries → fail j = some (es j)) →
      GCSMemStore.NewObject remote fail n =
        Except.error (StoreErr.listErr (some (es (GCSRetries - 1))))) ∧
    (∀ (fail : Nat → Option String) (s : StoreSt) (n : String)
        (h : memGCSObject),
      GCSMemStore.NewObject s.remote fail n = Except.ok h →
      runOp fail s (StoreOp.newObject n) =
        ({ s with
           heap := s.heap ++ [(s.nextId, h)], nextId := s.nextId + 1,
           objectMap := mapSet s.objectMap n s.nextId },
         Except.ok s.nextId)) := by
  refine ⟨?_, ?_, ?_, ?_⟩
  · intro remote n hne
    unfold GCSMemStore.NewObject
    cases hm : remoteMatching remote n with
    | nil => exact absurd hm hne
    | cons g gs => rw [get_ff_found remote n g gs hm]
  · intro remote n hm
    unfold GCSMemStore.NewObject
    rw [get_ff_notFound remote n hm]
  · intro remote fail es n hfail
    unfold GCSMemStore.NewObject
    rw [get_exhaust remote fail es n hfail]
  · intro fail s n h hok
    simp [runOp, hok]

/-- Witness for claim C4 at the empty remote store. -/
theorem newObject_amended_witness :
    GCSMemStore.NewObject ([] : List RemoteObj) ffList "n" =
      Except.ok { name := "n", updated := 0,
                  metadata := [(ContextTypeKey, contentType "n")],
                  googleObject := none, buff := some [],
                  readonly := false, opened := false } :=
  newObject_amended.2.1 [] "n" rfl

/-- Claim C5, amended: Get fails with ObjectNotFound exactly when the
single-result PREFIX lookup returns no record (no remote object name
extends the requested name); otherwise it returns a handle carrying the
name, update time and metadata of the FIRST matching record as its cached
remote snapshot, with the buffer left nil — the content is not downloaded
until Open. -/
theorem get_amended :
    (∀ remote n, remoteMatching remote n = [] →
      GCSMemStore.Get remote ffList n =
        Except.error StoreErr.objectNotFound) ∧
    (∀ remote n g gs, remoteMatching remote n = g :: gs →
      GCSMemStore.Get remote ffList n =
        Except.ok { name := g.name, updated := g.updated,
                    metadata := g.metadata, googleObject := some g,
                    buff := none, readonly := false, opened := false }) :=
  ⟨get_ff_notFound, get_ff_found⟩

/-- Witness for claim C5 at the remote store holding only the object named
ab, queried with the name a. -/
theorem get_amended_witness :
    GCSMemStore.Get remoteAB ffList "a" =
      Except.ok { name := "ab", updated := 3, metadata := [],
                  googleObject := some { name := "ab", updated := 3,
                                         metadata := [], size := 1,
                                         md5 := "h" },
                  buff := none, readonly := false, opened := false } :=
  get_amended.2 remoteAB "a"
    { name := "ab", updated := 3, metadata := [], size := 1, md5 := "h" }
    [] rfl

/-- Claim C6, amended: the registry maps each name to at most one handle,
and any registered handle is a live allocation bearing that name (the one
the most recent successful NewObject registered); the registry is never
consulted, so it does not prevent multiple live handles per name. Stated as
preservation of the registry well-formedness invariant under every sequence
of NewObject and Get operations. -/
theorem registry_amended (fail : Nat → Option String) (ops : List StoreOp)
    (s : StoreSt) (hs : StoreWF s) : StoreWF (runOps fail s ops) := by
  induction ops generalizing s with
  | nil => exact hs
  | cons op rest ih => exact ih (runOp fail s op).1 (storeWF_runOp fail s op hs)

/-- Witness for claim C6: the invariant holds after a NewObject and a Get
on the empty store. -/
theorem registry_amended_witness :
    StoreWF (runOps ffList storeSt0 [StoreOp.newObject "b", StoreOp.get "b"]) :=
  registry_amended ffList [StoreOp.newObject "b", StoreOp.get "b"] storeSt0
    ⟨fun i h hc => by simp [storeSt0, heapGet] at hc,
     fun n i hc => by simp [storeSt0, mapGet] at hc⟩

/-- Claim C8: every record returned by List is built from some merged
upstream listing record by the metadata fixup — hence its metadata always
carries an md5 entry holding the upstream content hash, and when the
upstream record had no Content-Length entry the returned metadata carries
one populated from the upstream size attribute. -/
theorem list_metadata_fixup (remote : List RemoteObj)
    (pageFail : Nat → Nat → Option String) (pageSize : Nat) (query : Query)
    (out : List gcsFSObject)
    (h : GCSMemStore.List remote pageFail pageSize query = Except.ok out) :
    ∀ r, r ∈ out → ∃ g : ObjectAttrs,
      r = { name := g.name, updated := g.updated, metadata := fixMeta g } ∧
      mdLookup r.metadata "md5" = some g.md5 ∧
      (mdLookup g.metadata "Content-Length" = none →
        mdLookup r.metadata "Content-Length" = some (toString g.size)) := by
  intro r hr
  simp only [GCSMemStore.List] at h
  split at h
  · exact absurd h (by simp)
  · simp only [Except.ok.injEq] at h
    rw [← h] at hr
    simp at hr
  · split at h
    · exact absurd h (by simp)
    · simp only [Except.ok.injEq] at h
      rw [← h] at hr
      have hr2 := mem_applyFiltersGo query.filters _ r hr
      obtain ⟨g, hgmem, hfg⟩ := List.mem_map.mp hr2
      refine ⟨g, hfg.symm, ?_, ?_⟩
      · rw [← hfg]
        exact fixMeta_md5 g
      · intro hcl
        rw [← hfg]
        exact fixMeta_contentLength g hcl

/-- Witness for claim C8 at a one-object remote store whose metadata lacks
both the Content-Length and md5 entries. -/
theorem list_metadata_fixup_witness :
    ∃ g : ObjectAttrs,
      ({ name := "w", updated := 2, metadata := [("md5", "hash"), ("Content-Length", "2"), ("k", "v")] } : gcsFSObject) =
        { name := g.name, updated := g.updated, metadata := fixMeta g } ∧
      mdLookup ({ name := "w", updated := 2, metadata := [("md5", "hash"), ("Content-Length", "2"), ("k", "v")] } : gcsFSObject).metadata "md5" = some g.md5 ∧
      (mdLookup g.metadata "Content-Length" = none →
        mdLookup ({ name := "w", updated := 2, metadata := [("md5", "hash"), ("Content-Length", "2"), ("k", "v")] } : gcsFSObject).metadata "Content-Length" =
          some (toString g.size)) :=
  list_metadata_fixup w8remote ffPage 10 { pfx := "", maxResults := 0 }
    [{ name := "w", updated := 2, metadata := [("md5", "hash"), ("Content-Length", "2"), ("k", "v")] }]
    rfl
    { name := "w", updated := 2, metadata := [("md5", "hash"), ("Content-Length", "2"), ("k", "v")] }
    (List.Mem.head _)
